import Mathlib

/-!
Verification of the UAV exposure-rating model (`Assignment.py`).

The development shallowly embeds the extended `portfolio` class (the second
revision in the file, the one with the simultaneous-use adjustments) together
with the shared `riebesell` increased-limit-factor curve.  Pandas DataFrame
rows are represented as Lean structures; the single `self.df` table is split
into its drone-row and camera-row sections, which is faithful because every
operation of the source filters the table by `assettype` and `pd.concat`
preserves the relative order of rows within each section.  Float arithmetic is
modelled over `ℝ`.

`pandas.DataFrame.nlargest(n, col)` (default `keep='first'`) returns the `n`
rows with the largest value in `col`, breaking ties in favour of the row that
appears first in the frame; it is embedded below as a stable descending
insertion sort of the index-tagged rows followed by `take n`.
-/

noncomputable section

open List

/-- `riebesell` from the source: `baselimit = 1000000`, `z = 0.2`,
`alpha = math.log2(1+z)`; returns `0.0` for `limit <= 0` and
`(limit/baselimit)**alpha` otherwise. -/
def riebesell (limit : ℝ) : ℝ :=
  let baselimit : ℝ := 1000000
  let z : ℝ := 0.2
  let alpha : ℝ := Real.logb 2 (1 + z)
  if limit ≤ 0 then 0.0
  else (limit / baselimit) ^ alpha

/-- The `weightmult` dictionary of `premcalculation` combined with the
`.map(weightmult).fillna(2.5)` step: a band outside the table silently
receives the fallback multiplier `2.5`. -/
def weightmult (weightband : String) : ℝ :=
  if weightband = "0 - 5kg" then 1.00
  else if weightband = "5 - 10kg" then 1.20
  else if weightband = "10 - 20kg" then 1.60
  else if weightband = "> 20kg" then 2.50
  else 2.5

/-- `basehull = 0.06`, the hull base rate. -/
def basehull : ℝ := 0.06

/-- `basetpl = 0.02`, the TPL base rate. -/
def basetpl : ℝ := 0.02

/-- A drone row of `self.df`: the user-supplied columns followed by the
derived columns written by `premcalculation` (initially meaningless, default
`0`; every claim reads them only after a calculation step has filled them). -/
structure DroneRow where
  serialnumber : String
  valuegbp : ℝ
  weightband : String
  hasdetachablecamera : Bool
  tpllimit : ℝ
  tplexcess : ℝ
  weightmultiplier : ℝ := 0
  baserate : ℝ := 0
  finalrate : ℝ := 0
  hullpremium : ℝ := 0
  tplbaserate : ℝ := 0
  tplbaselayerpremium : ℝ := 0
  tplilf : ℝ := 0
  tpllayerpremium : ℝ := 0
  totalprem : ℝ := 0
  adjusthullprem : ℝ := 0
  adjusttplprem : ℝ := 0

instance : Inhabited DroneRow :=
  ⟨{ serialnumber := "", valuegbp := 0, weightband := "", hasdetachablecamera := false,
     tpllimit := 0, tplexcess := 0 }⟩

/-- A camera row of `self.df`, analogously. -/
structure CameraRow where
  serialnumber : String
  valuegbp : ℝ
  rate : ℝ := 0
  premium : ℝ := 0
  adjustcamprem : ℝ := 0

instance : Inhabited CameraRow := ⟨{ serialnumber := "", valuegbp := 0 }⟩

/-- The column-wise drone computations of `premcalculation` (source lines
287–294, 303, 307–308): weight multiplier lookup, hull rates and premium,
TPL base layer premium, clamped ILF and layer premium, the `totalprem`
ranking key, and the initialisation of the adjusted premiums to the
unadjusted ones. -/
def droneBaseCalc (d : DroneRow) : DroneRow :=
  let wm := weightmult d.weightband
  let fr := basehull * wm
  let hp := d.valuegbp * fr
  let tblp := basetpl * d.valuegbp
  let ilf := max 0 (min (riebesell (d.tpllimit + d.tplexcess) - riebesell d.tplexcess) 1)
  let tlp := tblp * ilf
  { d with
    weightmultiplier := wm
    baserate := basehull
    finalrate := fr
    hullpremium := hp
    tplbaserate := basetpl
    tplbaselayerpremium := tblp
    tplilf := ilf
    tpllayerpremium := tlp
    totalprem := hp + tlp
    adjusthullprem := hp
    adjusttplprem := tlp }

/-- `pandas.Series.max()` on a list of (non-NaN) floats, with the source's
`... if not empty else 0` guard folded in: the empty list yields `0`. -/
def listMax : List ℝ → ℝ
  | [] => 0
  | [x] => x
  | x :: y :: rest => max x (listMax (y :: rest))

/-- `maxrate` (source line 297): the maximum `finalrate` among drones with a
detachable camera, `0` if there is no such drone. -/
def maxrate (dronesdf : List DroneRow) : ℝ :=
  listMax ((dronesdf.filter (fun d => d.hasdetachablecamera)).map (fun d => d.finalrate))

/-- The camera computations of `premcalculation` (source lines 296–299, 309):
every camera receives the shared rate `maxrate`, `premium = valuegbp * rate`,
and `adjustcamprem` is initialised to `premium`. -/
def cameraBaseCalc (mr : ℝ) (c : CameraRow) : CameraRow :=
  let prem := c.valuegbp * mr
  { c with rate := mr, premium := prem, adjustcamprem := prem }

/-- The sort relation effectively used by `nlargest(n, col)` with
`keep='first'` on index-tagged rows: larger key first, equal keys resolved in
favour of the smaller (earlier) row index. -/
def keyOrder {α : Type} (key : α → ℝ) (p q : ℕ × α) : Prop :=
  key q.2 < key p.2 ∨ (key p.2 = key q.2 ∧ p.1 ≤ q.1)

instance keyOrder.instDecidableRel {α : Type} (key : α → ℝ) : DecidableRel (keyOrder key) :=
  fun _ _ => Classical.propDecidable _

/-- `df.nlargest(n, col)` with the default `keep='first'`: the first `n` rows
of the stable descending sort of the frame by `col`. -/
def nlargestBy {α : Type} (key : α → ℝ) (n : ℕ) (l : List α) : List α :=
  (((l.enum).insertionSort (keyOrder key)).take n).map Prod.snd

/-- The drone adjustment block of `premcalculation` (source lines 311–317):
when `n` is given and `0 <= n < len(dronesdf)`, the serial numbers of the
`n` rows with the largest `totalprem` are collected and every row whose
serial number is not among them gets `adjusthullprem = 150` and
`adjusttplprem = 0`; otherwise the frame is unchanged. -/
def droneTierAdjust (n : Option ℤ) (dronesdf : List DroneRow) : List DroneRow :=
  match n with
  | some nv =>
    if 0 ≤ nv ∧ nv < (dronesdf.length : ℤ) then
      let topndrones := (nlargestBy (fun d => d.totalprem) nv.toNat dronesdf).map
        (fun d => d.serialnumber)
      dronesdf.map (fun d =>
        if d.serialnumber ∈ topndrones then d
        else { d with adjusthullprem := 150, adjusttplprem := 0 })
    else dronesdf
  | none => dronesdf

/-- The camera adjustment block of `premcalculation` (source lines 319–329):
`camlimit = max(n, number of drones with a detachable camera)` when `n` is
given (`None` otherwise); when `camlimit` is set and there are more cameras
than drones, every camera whose serial number is not among the `camlimit`
rows with the largest `valuegbp` gets `adjustcamprem = 50`. -/
def cameraTierAdjust (n : Option ℤ) (dronesdf : List DroneRow)
    (camerasdf : List CameraRow) : List CameraRow :=
  let camlimit : Option ℤ :=
    match n with
    | some nv =>
      some (max nv ((dronesdf.filter (fun d => d.hasdetachablecamera)).length : ℤ))
    | none => none
  match camlimit with
  | some cl =>
    if camerasdf.length > dronesdf.length then
      let topncameras := (nlargestBy (fun c => c.valuegbp) cl.toNat camerasdf).map
        (fun c => c.serialnumber)
      camerasdf.map (fun c =>
        if c.serialnumber ∈ topncameras then c
        else { c with adjustcamprem := 50 })
    else camerasdf
  | none => camerasdf

/-- The portfolio object: policy metadata plus the drone and camera sections
of `self.df`. -/
structure portfolio where
  insured : String
  underwriter : String
  broker : String
  brokerage : ℝ
  simultanousdronelimit : Option ℤ := none
  drones : List DroneRow := []
  cameras : List CameraRow := []

namespace portfolio

/-- `portfolio.premcalculation(n)` of the extended class (source lines
279–333): recompute every derived drone and camera column from the raw
columns, then apply the two top-tier adjustments.  Drones: when `n` is given
and `0 <= n < numdrones`, rows outside the `n` largest by `totalprem` get
`adjusthullprem = 150`, `adjusttplprem = 0`.  Cameras: when `n` is given,
`camlimit = max(n, number of drones with a detachable camera)`, and when
additionally `numcameras > numdrones`, rows outside the `camlimit` largest by
`valuegbp` get `adjustcamprem = 50`. -/
def premcalculation (p : portfolio) (n : Option ℤ) : portfolio :=
  let dronesdf := p.drones.map droneBaseCalc
  let mr := maxrate dronesdf
  let camerasdf := p.cameras.map (cameraBaseCalc mr)
  { p with
    drones := droneTierAdjust n dronesdf
    cameras := cameraTierAdjust n dronesdf camerasdf }

/-- One `{net, gross}` row of the premium summary. -/
structure SummaryRow where
  net : ℝ
  gross : ℝ

/-- The four-category premium summary. -/
structure Summary where
  droneHull : SummaryRow
  droneTPL : SummaryRow
  cameraHull : SummaryRow
  total : SummaryRow

/-- `portfolio.summaries` of the extended class (source lines 338–352): net
totals are the sums of the adjusted premium columns, each gross is its net
divided by `1 - brokerage`, and the `Total` row sums the other three rows
component-wise. -/
def summaries (p : portfolio) : Summary :=
  let hulltotnet := (p.drones.map (fun d => d.adjusthullprem)).sum
  let tpltotnet := (p.drones.map (fun d => d.adjusttplprem)).sum
  let camtotnet := (p.cameras.map (fun c => c.adjustcamprem)).sum
  let hulltotgross := hulltotnet / (1 - p.brokerage)
  let tpltotgross := tpltotnet / (1 - p.brokerage)
  let camtotgross := camtotnet / (1 - p.brokerage)
  { droneHull := ⟨hulltotnet, hulltotgross⟩
    droneTPL := ⟨tpltotnet, tpltotgross⟩
    cameraHull := ⟨camtotnet, camtotgross⟩
    total := ⟨hulltotnet + tpltotnet + camtotnet, hulltotgross + tpltotgross + camtotgross⟩ }

end portfolio

@[simp] theorem droneBaseCalc_serialnumber (d : DroneRow) :
    (droneBaseCalc d).serialnumber = d.serialnumber := rfl

@[simp] theorem droneBaseCalc_valuegbp (d : DroneRow) :
    (droneBaseCalc d).valuegbp = d.valuegbp := rfl

@[simp] theorem droneBaseCalc_weightband (d : DroneRow) :
    (droneBaseCalc d).weightband = d.weightband := rfl

@[simp] theorem droneBaseCalc_hasdetachablecamera (d : DroneRow) :
    (droneBaseCalc d).hasdetachablecamera = d.hasdetachablecamera := rfl

@[simp] theorem droneBaseCalc_tpllimit (d : DroneRow) :
    (droneBaseCalc d).tpllimit = d.tpllimit := rfl

@[simp] theorem droneBaseCalc_tplexcess (d : DroneRow) :
    (droneBaseCalc d).tplexcess = d.tplexcess := rfl

@[simp] theorem droneBaseCalc_weightmultiplier (d : DroneRow) :
    (droneBaseCalc d).weightmultiplier = weightmult d.weightband := rfl

@[simp] theorem droneBaseCalc_baserate (d : DroneRow) :
    (droneBaseCalc d).baserate = basehull := rfl

@[simp] theorem droneBaseCalc_finalrate (d : DroneRow) :
    (droneBaseCalc d).finalrate = basehull * weightmult d.weightband := rfl

@[simp] theorem droneBaseCalc_hullpremium (d : DroneRow) :
    (droneBaseCalc d).hullpremium = d.valuegbp * (basehull * weightmult d.weightband) := rfl

@[simp] theorem droneBaseCalc_tplbaserate (d : DroneRow) :
    (droneBaseCalc d).tplbaserate = basetpl := rfl

@[simp] theorem droneBaseCalc_tplbaselayerpremium (d : DroneRow) :
    (droneBaseCalc d).tplbaselayerpremium = basetpl * d.valuegbp := rfl

@[simp] theorem droneBaseCalc_tplilf (d : DroneRow) :
    (droneBaseCalc d).tplilf =
      max 0 (min (riebesell (d.tpllimit + d.tplexcess) - riebesell d.tplexcess) 1) := rfl

@[simp] theorem droneBaseCalc_tpllayerpremium (d : DroneRow) :
    (droneBaseCalc d).tpllayerpremium =
      basetpl * d.valuegbp *
        max 0 (min (riebesell (d.tpllimit + d.tplexcess) - riebesell d.tplexcess) 1) := rfl

@[simp] theorem droneBaseCalc_totalprem (d : DroneRow) :
    (droneBaseCalc d).totalprem =
      (droneBaseCalc d).hullpremium + (droneBaseCalc d).tpllayerpremium := rfl

@[simp] theorem droneBaseCalc_adjusthullprem (d : DroneRow) :
    (droneBaseCalc d).adjusthullprem = (droneBaseCalc d).hullpremium := rfl

@[simp] theorem droneBaseCalc_adjusttplprem (d : DroneRow) :
    (droneBaseCalc d).adjusttplprem = (droneBaseCalc d).tpllayerpremium := rfl

@[simp] theorem cameraBaseCalc_serialnumber (mr : ℝ) (c : CameraRow) :
    (cameraBaseCalc mr c).serialnumber = c.serialnumber := rfl

@[simp] theorem cameraBaseCalc_valuegbp (mr : ℝ) (c : CameraRow) :
    (cameraBaseCalc mr c).valuegbp = c.valuegbp := rfl

@[simp] theorem cameraBaseCalc_rate (mr : ℝ) (c : CameraRow) :
    (cameraBaseCalc mr c).rate = mr := rfl

@[simp] theorem cameraBaseCalc_premium (mr : ℝ) (c : CameraRow) :
    (cameraBaseCalc mr c).premium = c.valuegbp * mr := rfl

@[simp] theorem cameraBaseCalc_adjustcamprem (mr : ℝ) (c : CameraRow) :
    (cameraBaseCalc mr c).adjustcamprem = c.valuegbp * mr := rfl

@[simp] theorem premcalculation_drones (p : portfolio) (n : Option ℤ) :
    (p.premcalculation n).drones = droneTierAdjust n (p.drones.map droneBaseCalc) := rfl

@[simp] theorem premcalculation_cameras (p : portfolio) (n : Option ℤ) :
    (p.premcalculation n).cameras =
      cameraTierAdjust n (p.drones.map droneBaseCalc)
        (p.cameras.map (cameraBaseCalc (maxrate (p.drones.map droneBaseCalc)))) := rfl

@[simp] theorem premcalculation_brokerage (p : portfolio) (n : Option ℤ) :
    (p.premcalculation n).brokerage = p.brokerage := rfl

theorem droneTierAdjust_none (ds : List DroneRow) : droneTierAdjust none ds = ds := rfl

theorem droneTierAdjust_some (nv : ℤ) (ds : List DroneRow) :
    droneTierAdjust (some nv) ds =
      if 0 ≤ nv ∧ nv < (ds.length : ℤ) then
        ds.map (fun d =>
          if d.serialnumber ∈
              (nlargestBy (fun d => d.totalprem) nv.toNat ds).map
                (fun d => d.serialnumber) then d
          else { d with adjusthullprem := 150, adjusttplprem := 0 })
      else ds := rfl

theorem cameraTierAdjust_none (ds : List DroneRow) (cs : List CameraRow) :
    cameraTierAdjust none ds cs = cs := rfl

theorem cameraTierAdjust_some (nv : ℤ) (ds : List DroneRow) (cs : List CameraRow) :
    cameraTierAdjust (some nv) ds cs =
      if cs.length > ds.length then
        cs.map (fun c =>
          if c.serialnumber ∈
              (nlargestBy (fun c => c.valuegbp)
                (max nv ((ds.filter (fun d => d.hasdetachablecamera)).length : ℤ)).toNat
                cs).map (fun c => c.serialnumber) then c
          else { c with adjustcamprem := 50 })
      else cs := rfl

theorem cameraTierAdjust_mem {c : CameraRow} {n : Option ℤ} {ds : List DroneRow}
    {cs : List CameraRow} (hc : c ∈ cameraTierAdjust n ds cs) :
    ∃ c0 ∈ cs, c.rate = c0.rate ∧ c.premium = c0.premium ∧ c.valuegbp = c0.valuegbp := by
  rcases n with _ | nv
  · exact ⟨c, hc, rfl, rfl, rfl⟩
  · rw [cameraTierAdjust_some] at hc
    by_cases h : cs.length > ds.length
    · rw [if_pos h] at hc
      simp only [List.mem_map] at hc
      obtain ⟨c1, hc1, rfl⟩ := hc
      refine ⟨c1, hc1, ?_, ?_, ?_⟩ <;> split <;> rfl
    · rw [if_neg h] at hc
      exact ⟨c, hc, rfl, rfl, rfl⟩

/-- The number of rows that outrank row `i` in the descending ranking over
`keys` that `nlargest` uses: rows with a larger key, or an equal key at an
earlier position. -/
def beatCount (keys : List ℝ) (i : ℕ) : ℕ :=
  (List.range keys.length).countP (fun j =>
    @decide (keys.getD i 0 < keys.getD j 0 ∨ (keys.getD j 0 = keys.getD i 0 ∧ j < i))
      (Classical.propDecidable _))

theorem keyOrder_total {α : Type} (key : α → ℝ) (p q : ℕ × α) :
    keyOrder key p q ∨ keyOrder key q p := by
  rcases lt_trichotomy (key p.2) (key q.2) with h | h | h
  · exact Or.inr (Or.inl h)
  · rcases Nat.le_total p.1 q.1 with hle | hle
    · exact Or.inl (Or.inr ⟨h, hle⟩)
    · exact Or.inr (Or.inr ⟨h.symm, hle⟩)
  · exact Or.inl (Or.inl h)

theorem keyOrder_trans {α : Type} (key : α → ℝ) {p q s : ℕ × α}
    (h1 : keyOrder key p q) (h2 : keyOrder key q s) : keyOrder key p s := by
  rcases h1 with h1 | ⟨e1, l1⟩ <;> rcases h2 with h2 | ⟨e2, l2⟩
  · exact Or.inl (lt_trans h2 h1)
  · exact Or.inl (by rw [← e2]; exact h1)
  · exact Or.inl (by rw [e1]; exact h2)
  · exact Or.inr ⟨e1.trans e2, le_trans l1 l2⟩

instance keyOrder.instIsTotal {α : Type} (key : α → ℝ) :
    IsTotal (ℕ × α) (keyOrder key) :=
  ⟨keyOrder_total key⟩

instance keyOrder.instIsTrans {α : Type} (key : α → ℝ) :
    IsTrans (ℕ × α) (keyOrder key) :=
  ⟨fun _ _ _ => keyOrder_trans key⟩

theorem keyOrder_antisymm {α : Type} (key : α → ℝ) {p q : ℕ × α}
    (h1 : keyOrder key p q) (h2 : keyOrder key q p) :
    p.1 = q.1 ∧ key p.2 = key q.2 := by
  rcases h1 with h1 | ⟨e1, l1⟩ <;> rcases h2 with h2 | ⟨e2, l2⟩
  · exact absurd (lt_trans h1 h2) (lt_irrefl _)
  · rw [e2] at h1
    exact absurd h1 (lt_irrefl _)
  · rw [e1] at h2
    exact absurd h2 (lt_irrefl _)
  · exact ⟨Nat.le_antisymm l1 l2, e1⟩

/-- In a list sorted by a total relation whose ties are genuine equalities,
an element lies in the first `n` positions exactly when fewer than `n`
elements strictly precede it. -/
theorem mem_take_iff_countP {β : Type} {r : β → β → Prop} :
    ∀ (s : List β), s.Pairwise r →
      (∀ p ∈ s, ∀ q ∈ s, r p q → r q p → p = q) →
      ∀ a ∈ s, ∀ n : ℕ,
        (a ∈ s.take n ↔
          s.countP (fun q => @decide (r q a ∧ q ≠ a) (Classical.propDecidable _)) < n)
  | [], _, _, a, ha, _ => absurd ha (List.not_mem_nil a)
  | b :: t, hpw, hanti, a, ha, n => by
    obtain ⟨hb, hpt⟩ := List.pairwise_cons.mp hpw
    by_cases hab : a = b
    · subst hab
      have hhead : @decide (r a a ∧ a ≠ a) (Classical.propDecidable _) = false :=
        @decide_eq_false _ (Classical.propDecidable _) (fun h => h.2 rfl)
      have htail : t.countP (fun q => @decide (r q a ∧ q ≠ a) (Classical.propDecidable _)) = 0 := by
        rw [List.countP_eq_zero]
        intro x hx hdec
        obtain ⟨hxa, hne⟩ :=
          @of_decide_eq_true (r x a ∧ x ≠ a) (Classical.propDecidable _) hdec
        exact hne (hanti x (List.mem_cons_of_mem _ hx) a (List.mem_cons_self _ _)
          hxa (hb x hx))
      have hcount : (a :: t).countP
          (fun q => @decide (r q a ∧ q ≠ a) (Classical.propDecidable _)) = 0 := by
        rw [List.countP_cons]
        simp [hhead, htail]
      cases n with
      | zero => simp
      | succ m => simp [hcount]
    · have hat : a ∈ t := (List.mem_cons.mp ha).resolve_left hab
      have hhead : @decide (r b a ∧ b ≠ a) (Classical.propDecidable _) = true :=
        @decide_eq_true _ (Classical.propDecidable _) ⟨hb a hat, fun h => hab h.symm⟩
      have hanti' : ∀ p ∈ t, ∀ q ∈ t, r p q → r q p → p = q := fun p hp q hq =>
        hanti p (List.mem_cons_of_mem _ hp) q (List.mem_cons_of_mem _ hq)
      have hcount : (b :: t).countP
          (fun q => @decide (r q a ∧ q ≠ a) (Classical.propDecidable _)) =
          t.countP (fun q => @decide (r q a ∧ q ≠ a) (Classical.propDecidable _)) + 1 := by
        rw [List.countP_cons]
        simp [hhead]
      have ih := mem_take_iff_countP t hpt hanti' a hat
      cases n with
      | zero => simp
      | succ m =>
        rw [List.take_succ_cons, List.mem_cons, hcount, ih m]
        simp only [hab, false_or]
        omega

theorem enum_eq_map_range {α : Type} [Inhabited α] (l : List α) :
    l.enum = (List.range l.length).map (fun j => (j, l.getD j default)) := by
  apply List.ext_getElem
  · simp
  · intro i h1 h2
    have hi : i < l.length := by simpa using h1
    simp only [List.getElem_enum, List.getElem_map, List.getElem_range]
    rw [List.getD_eq_getElem _ _ hi]

theorem countP_enum_eq {α : Type} [Inhabited α] (l : List α) (f : ℕ × α → Bool) :
    l.enum.countP f = (List.range l.length).countP (fun j => f (j, l.getD j default)) := by
  rw [enum_eq_map_range l, List.countP_map]
  rfl

theorem nlargestBy_subset {α : Type} (key : α → ℝ) (n : ℕ) (l : List α) {x : α}
    (hx : x ∈ nlargestBy key n l) : x ∈ l := by
  unfold nlargestBy at hx
  rw [List.mem_map] at hx
  obtain ⟨p, hp, rfl⟩ := hx
  exact List.snd_mem_of_mem_enum
    ((List.perm_insertionSort _ _).mem_iff.mp (List.mem_of_mem_take hp))

/-- When the requested tier size covers the whole frame, `nlargest` keeps
every row. -/
theorem mem_nlargestBy_of_length_le {α : Type} (key : α → ℝ) {n : ℕ} {l : List α}
    (hn : l.length ≤ n) {x : α} (hx : x ∈ l) : x ∈ nlargestBy key n l := by
  unfold nlargestBy
  have hlen : ((l.enum).insertionSort (keyOrder key)).length = l.length := by
    rw [(List.perm_insertionSort _ _).length_eq, List.enum_length]
  rw [List.take_of_length_le (by rw [hlen]; exact hn)]
  obtain ⟨i, hi, hix⟩ := List.mem_iff_getElem.mp hx
  have hE : (i, x) ∈ l.enum := by
    rw [List.mem_enum_iff_getElem?]
    show l[i]? = some x
    rw [List.getElem?_eq_getElem hi, hix]
  exact List.mem_map_of_mem Prod.snd ((List.perm_insertionSort _ _).mem_iff.mpr hE)

/-- The characterization of membership in `nlargest(n)` (ties kept first):
row `i` survives exactly when fewer than `n` rows outrank it, i.e. have a
strictly larger key or an equal key and an earlier position. -/
theorem getD_mem_nlargestBy_iff {α : Type} [Inhabited α] (key : α → ℝ) (n : ℕ)
    (l : List α) (hnd : l.Nodup) (i : ℕ) (hi : i < l.length) :
    l.getD i default ∈ nlargestBy key n l ↔ beatCount (l.map key) i < n := by
  have hperm : (l.enum).insertionSort (keyOrder key) ~ l.enum :=
    List.perm_insertionSort _ _
  have hsorted : ((l.enum).insertionSort (keyOrder key)).Pairwise (keyOrder key) :=
    List.sorted_insertionSort _ _
  have hanti : ∀ p ∈ (l.enum).insertionSort (keyOrder key),
      ∀ q ∈ (l.enum).insertionSort (keyOrder key),
      keyOrder key p q → keyOrder key q p → p = q := by
    intro p hp q hq h1 h2
    obtain ⟨hfst, _⟩ := keyOrder_antisymm key h1 h2
    have hp' : l[p.1]? = some p.2 :=
      List.mem_enum_iff_getElem?.mp (hperm.mem_iff.mp hp)
    have hq' : l[q.1]? = some q.2 :=
      List.mem_enum_iff_getElem?.mp (hperm.mem_iff.mp hq)
    rw [hfst, hq'] at hp'
    exact Prod.ext hfst (Option.some.inj hp').symm
  have hmemE : (i, l.getD i default) ∈ l.enum := by
    rw [List.mem_enum_iff_getElem?]
    show l[i]? = some (l.getD i default)
    rw [List.getElem?_eq_getElem hi, List.getD_eq_getElem _ _ hi]
  have hkey := mem_take_iff_countP ((l.enum).insertionSort (keyOrder key)) hsorted hanti
    (i, l.getD i default) (hperm.mem_iff.mpr hmemE) n
  have hcount : ((l.enum).insertionSort (keyOrder key)).countP
      (fun q => @decide (keyOrder key q (i, l.getD i default) ∧ q ≠ (i, l.getD i default))
        (Classical.propDecidable _)) = beatCount (l.map key) i := by
    rw [hperm.countP_eq, countP_enum_eq]
    unfold beatCount
    rw [List.length_map]
    apply List.countP_congr
    intro j hj
    rw [List.mem_range] at hj
    have hkj : (l.map key).getD j 0 = key (l.getD j default) := by
      rw [List.getD_eq_getElem _ _ (by simpa using hj), List.getElem_map,
        List.getD_eq_getElem _ _ hj]
    have hki : (l.map key).getD i 0 = key (l.getD i default) := by
      rw [List.getD_eq_getElem _ _ (by simpa using hi), List.getElem_map,
        List.getD_eq_getElem _ _ hi]
    simp only [decide_eq_true_eq, keyOrder, hkj, hki]
    constructor
    · rintro ⟨h1 | ⟨he, hle⟩, hne⟩
      · exact Or.inl h1
      · rcases Nat.lt_or_ge j i with hji | hji
        · exact Or.inr ⟨he, hji⟩
        · exact absurd (by rw [Nat.le_antisymm hle hji]) hne
    · rintro (h1 | ⟨he, hlt⟩)
      · refine ⟨Or.inl h1, fun hcontra => ?_⟩
        have hji : j = i := congrArg Prod.fst hcontra
        subst hji
        exact lt_irrefl _ h1
      · exact ⟨Or.inr ⟨he, hlt.le⟩,
          fun hcontra => absurd (congrArg Prod.fst hcontra) (Nat.ne_of_lt hlt)⟩
  have hA : l.getD i default ∈ nlargestBy key n l ↔
      (i, l.getD i default) ∈ ((l.enum).insertionSort (keyOrder key)).take n := by
    unfold nlargestBy
    rw [List.mem_map]
    constructor
    · rintro ⟨p, hp, hpe⟩
      have hpE : p ∈ l.enum := hperm.mem_iff.mp (List.mem_of_mem_take hp)
      have hp1 : p.1 < l.length := List.fst_lt_of_mem_enum hpE
      have hp2 : l[p.1]? = some p.2 := List.mem_enum_iff_getElem?.mp hpE
      rw [List.getElem?_eq_getElem hp1] at hp2
      have hget : l[p.1] = l[i] := by
        rw [Option.some.inj hp2, hpe, List.getD_eq_getElem _ _ hi]
      have hpi : p.1 = i := (List.Nodup.getElem_inj_iff hnd).mp hget
      have hpfull : p = (i, l.getD i default) := Prod.ext hpi hpe
      exact hpfull ▸ hp
    · intro hp
      exact ⟨(i, l.getD i default), hp, rfl⟩
  rw [hA, hkey, hcount]

theorem droneTierAdjust_length (n : Option ℤ) (ds : List DroneRow) :
    (droneTierAdjust n ds).length = ds.length := by
  rcases n with _ | nv
  · rfl
  · rw [droneTierAdjust_some]
    split
    · rw [List.length_map]
    · rfl

theorem cameraTierAdjust_length (n : Option ℤ) (ds : List DroneRow) (cs : List CameraRow) :
    (cameraTierAdjust n ds cs).length = cs.length := by
  rcases n with _ | nv
  · rfl
  · rw [cameraTierAdjust_some]
    split
    · rw [List.length_map]
    · rfl

/-- Pointwise description of the drone tier adjustment in its active case:
row `i` keeps its premiums exactly when fewer than `n` rows outrank it by
`totalprem`. -/
theorem droneTierAdjust_getD (nv : ℤ) (ds : List DroneRow)
    (hser : (ds.map (fun d => d.serialnumber)).Nodup)
    (hn : 0 ≤ nv ∧ nv < (ds.length : ℤ)) (i : ℕ) (hi : i < ds.length) :
    (droneTierAdjust (some nv) ds).getD i default =
      if beatCount (ds.map (fun d => d.totalprem)) i < nv.toNat then ds.getD i default
      else { ds.getD i default with adjusthullprem := 150, adjusttplprem := 0 } := by
  have hnd : ds.Nodup := hser.of_map
  have hbridge := getD_mem_nlargestBy_iff (fun d => d.totalprem) nv.toNat ds hnd i hi
  rw [List.getD_eq_getElem _ _ hi] at hbridge
  rw [droneTierAdjust_some, if_pos hn,
    List.getD_eq_getElem _ _ (by rw [List.length_map]; exact hi)]
  simp only [List.getElem_map]
  have hsermem : ((ds[i]).serialnumber ∈
      (nlargestBy (fun d => d.totalprem) nv.toNat ds).map (fun d => d.serialnumber)) ↔
      beatCount (ds.map (fun d => d.totalprem)) i < nv.toNat := by
    rw [List.mem_map]
    constructor
    · rintro ⟨x, hx, hxe⟩
      have hxl : x ∈ ds := nlargestBy_subset _ _ _ hx
      have hxi : x = ds[i] :=
        List.inj_on_of_nodup_map hser hxl (List.getElem_mem _) hxe
      exact hbridge.mp (hxi ▸ hx)
    · intro h
      exact ⟨ds[i], hbridge.mpr h, rfl⟩
  rw [List.getD_eq_getElem _ _ hi, if_congr hsermem rfl rfl]

/-- Pointwise description of the camera tier adjustment in its active case. -/
theorem cameraTierAdjust_getD (nv : ℤ) (ds : List DroneRow) (cs : List CameraRow)
    (hser : (cs.map (fun c => c.serialnumber)).Nodup)
    (hgt : cs.length > ds.length) (i : ℕ) (hi : i < cs.length) :
    (cameraTierAdjust (some nv) ds cs).getD i default =
      if beatCount (cs.map (fun c => c.valuegbp)) i <
          (max nv ((ds.filter (fun d => d.hasdetachablecamera)).length : ℤ)).toNat then
        cs.getD i default
      else { cs.getD i default with adjustcamprem := 50 } := by
  have hnd : cs.Nodup := hser.of_map
  have hbridge := getD_mem_nlargestBy_iff (fun c => c.valuegbp)
    (max nv ((ds.filter (fun d => d.hasdetachablecamera)).length : ℤ)).toNat cs hnd i hi
  rw [List.getD_eq_getElem _ _ hi] at hbridge
  rw [cameraTierAdjust_some, if_pos hgt,
    List.getD_eq_getElem _ _ (by rw [List.length_map]; exact hi)]
  simp only [List.getElem_map]
  have hsermem : ((cs[i]).serialnumber ∈
      (nlargestBy (fun c => c.valuegbp)
        (max nv ((ds.filter (fun d => d.hasdetachablecamera)).length : ℤ)).toNat cs).map
        (fun c => c.serialnumber)) ↔
      beatCount (cs.map (fun c => c.valuegbp)) i <
        (max nv ((ds.filter (fun d => d.hasdetachablecamera)).length : ℤ)).toNat := by
    rw [List.mem_map]
    constructor
    · rintro ⟨x, hx, hxe⟩
      have hxl : x ∈ cs := nlargestBy_subset _ _ _ hx
      have hxi : x = cs[i] :=
        List.inj_on_of_nodup_map hser hxl (List.getElem_mem _) hxe
      exact hbridge.mp (hxi ▸ hx)
    · intro h
      exact ⟨cs[i], hbridge.mpr h, rfl⟩
  rw [List.getD_eq_getElem _ _ hi, if_congr hsermem rfl rfl]

/-- No camera flattening when there are at most as many cameras as drones. -/
theorem cameraTierAdjust_of_le (n : Option ℤ) (ds : List DroneRow) (cs : List CameraRow)
    (h : cs.length ≤ ds.length) : cameraTierAdjust n ds cs = cs := by
  rcases n with _ | nv
  · rfl
  · rw [cameraTierAdjust_some, if_neg (not_lt.mpr h)]

/-- When `camlimit` covers the whole camera frame every camera is kept. -/
theorem cameraTierAdjust_keep_of_le (nv : ℤ) (ds : List DroneRow) (cs : List CameraRow)
    (hcl : cs.length ≤
      (max nv ((ds.filter (fun d => d.hasdetachablecamera)).length : ℤ)).toNat) :
    cameraTierAdjust (some nv) ds cs = cs := by
  rw [cameraTierAdjust_some]
  split
  · have hid : ∀ c ∈ cs,
        (if c.serialnumber ∈
            (nlargestBy (fun c => c.valuegbp)
              (max nv ((ds.filter (fun d => d.hasdetachablecamera)).length : ℤ)).toNat
              cs).map (fun c => c.serialnumber) then c
          else { c with adjustcamprem := 50 }) = id c := by
      intro c hc
      exact if_pos (List.mem_map_of_mem _ (mem_nlargestBy_of_length_le _ hcl hc))
    rw [List.map_congr_left hid, List.map_id]
  · rfl

theorem riebesell_of_nonpos {limit : ℝ} (h : limit ≤ 0) : riebesell limit = 0 := by
  simp only [riebesell]
  rw [if_pos h]
  norm_num

theorem riebesell_of_pos {limit : ℝ} (h : 0 < limit) :
    riebesell limit = (limit / 1000000) ^ Real.logb 2 (1 + 0.2) := by
  simp only [riebesell]
  rw [if_neg (not_le.mpr h)]

theorem riebesell_alpha_pos : 0 < Real.logb 2 (1 + (0.2 : ℝ)) :=
  Real.logb_pos one_lt_two (by norm_num)

theorem riebesell_zero : riebesell 0 = 0 := riebesell_of_nonpos le_rfl

theorem riebesell_base_value : riebesell 1000000 = 1 := by
  rw [riebesell_of_pos (by norm_num),
    show ((1000000 : ℝ) / 1000000) = 1 by norm_num, Real.one_rpow]

/-- **C4.** The Riebesell ILF curve returns `0` for every `limit ≤ 0`;
for `limit > 0` it returns `(limit / baseLimit)^α` with `baseLimit = 1000000`
and `α = log2(1 + z)` for the shape parameter `z = 0.2` of the source;
`riebesell baseLimit = 1`; and `riebesell` is strictly increasing on
`limit > 0`. -/
theorem riebesell_ilf_curve :
    (∀ limit : ℝ, limit ≤ 0 → riebesell limit = 0) ∧
    (∀ limit : ℝ, 0 < limit →
      riebesell limit = (limit / 1000000) ^ Real.logb 2 (1 + 0.2)) ∧
    riebesell 1000000 = 1 ∧
    StrictMonoOn riebesell (Set.Ioi 0) := by
  refine ⟨fun _ hl => riebesell_of_nonpos hl, fun _ hl => riebesell_of_pos hl, ?_, ?_⟩
  · rw [riebesell_of_pos (by norm_num),
      show ((1000000 : ℝ) / 1000000) = 1 by norm_num, Real.one_rpow]
  · intro x hx y _ hxy
    have hx' : 0 < x := Set.mem_Ioi.mp hx
    rw [riebesell_of_pos hx', riebesell_of_pos (lt_trans hx' hxy)]
    exact Real.rpow_lt_rpow (div_nonneg hx'.le (by norm_num))
      (by gcongr) riebesell_alpha_pos

theorem riebesell_ilf_curve_witness :
    (-1 : ℝ) ≤ 0 ∧ riebesell (-1) = 0 ∧ riebesell 1000000 = 1 ∧
      riebesell 500000 < riebesell 1000000 :=
  ⟨by norm_num, riebesell_ilf_curve.1 (-1) (by norm_num), riebesell_ilf_curve.2.2.1,
    riebesell_ilf_curve.2.2.2 (Set.mem_Ioi.mpr (by norm_num))
      (Set.mem_Ioi.mpr (by norm_num)) (by norm_num)⟩

/-- **C5.** For every drone record (value nonnegative, per the data model),
the ILF factor equals `clamp(riebesell(tpllimit + tplexcess) −
riebesell(tplexcess), 0, 1)` and lies in `[0, 1]` for arbitrary `tpllimit`
and `tplexcess`; `tplbaselayerpremium = 0.02 × value`; and
`tpllayerpremium = tplbaselayerpremium × ilf`, hence the layer premium is
never negative and never exceeds the base layer premium. -/
theorem tpl_layer_premium (d : DroneRow) (hv : 0 ≤ d.valuegbp) :
    (droneBaseCalc d).tplilf =
      max 0 (min (riebesell (d.tpllimit + d.tplexcess) - riebesell d.tplexcess) 1) ∧
    0 ≤ (droneBaseCalc d).tplilf ∧ (droneBaseCalc d).tplilf ≤ 1 ∧
    (droneBaseCalc d).tplbaselayerpremium = 0.02 * d.valuegbp ∧
    (droneBaseCalc d).tpllayerpremium =
      (droneBaseCalc d).tplbaselayerpremium * (droneBaseCalc d).tplilf ∧
    0 ≤ (droneBaseCalc d).tpllayerpremium ∧
    (droneBaseCalc d).tpllayerpremium ≤ (droneBaseCalc d).tplbaselayerpremium := by
  have hilf0 : (0 : ℝ) ≤ (droneBaseCalc d).tplilf := le_max_left 0 _
  have hilf1 : (droneBaseCalc d).tplilf ≤ 1 :=
    max_le zero_le_one (min_le_right _ 1)
  have hbase : (0 : ℝ) ≤ (droneBaseCalc d).tplbaselayerpremium := by
    simp only [droneBaseCalc_tplbaselayerpremium, basetpl]
    positivity
  refine ⟨rfl, hilf0, hilf1, by simp [basetpl], rfl, mul_nonneg hbase hilf0, ?_⟩
  exact mul_le_of_le_one_right hbase hilf1

/-- A concrete drone record (the §8 scenario drone of the spec). -/
def sampleDrone : DroneRow :=
  { serialnumber := "AAA-111", valuegbp := 40000, weightband := "0 - 5kg",
    hasdetachablecamera := false, tpllimit := 1300000, tplexcess := 12000 }

@[simp] theorem droneTier_serialnumber (cond : Prop) [Decidable cond] (d : DroneRow) :
    (if cond then d else { d with adjusthullprem := 150, adjusttplprem := 0 }).serialnumber =
      d.serialnumber := by
  split <;> rfl

@[simp] theorem droneTier_hullpremium (cond : Prop) [Decidable cond] (d : DroneRow) :
    (if cond then d else { d with adjusthullprem := 150, adjusttplprem := 0 }).hullpremium =
      d.hullpremium := by
  split <;> rfl

@[simp] theorem droneTier_tpllayerpremium (cond : Prop) [Decidable cond] (d : DroneRow) :
    (if cond then d
      else { d with adjusthullprem := 150, adjusttplprem := 0 }).tpllayerpremium =
      d.tpllayerpremium := by
  split <;> rfl

@[simp] theorem camTier_serialnumber (cond : Prop) [Decidable cond] (c : CameraRow) :
    (if cond then c else { c with adjustcamprem := 50 }).serialnumber = c.serialnumber := by
  split <;> rfl

@[simp] theorem camTier_valuegbp (cond : Prop) [Decidable cond] (c : CameraRow) :
    (if cond then c else { c with adjustcamprem := 50 }).valuegbp = c.valuegbp := by
  split <;> rfl

@[simp] theorem camTier_rate (cond : Prop) [Decidable cond] (c : CameraRow) :
    (if cond then c else { c with adjustcamprem := 50 }).rate = c.rate := by
  split <;> rfl

@[simp] theorem camTier_premium (cond : Prop) [Decidable cond] (c : CameraRow) :
    (if cond then c else { c with adjustcamprem := 50 }).premium = c.premium := by
  split <;> rfl

theorem le_listMax : ∀ (l : List ℝ), ∀ x ∈ l, x ≤ listMax l
  | [a], x, hx => by
      simp only [List.mem_singleton] at hx
      simp [listMax, hx]
  | a :: b :: rest, x, hx => by
      rw [show listMax (a :: b :: rest) = max a (listMax (b :: rest)) from rfl]
      rcases List.mem_cons.mp hx with h | h
      · exact h ▸ le_max_left _ _
      · exact le_trans (le_listMax (b :: rest) x h) (le_max_right _ _)

theorem listMax_mem : ∀ (l : List ℝ), l ≠ [] → listMax l ∈ l
  | [], h => absurd rfl h
  | [a], _ => by simp [listMax]
  | a :: b :: rest, _ => by
      rw [show listMax (a :: b :: rest) = max a (listMax (b :: rest)) from rfl]
      rcases le_total a (listMax (b :: rest)) with h | h
      · rw [max_eq_right h]
        exact List.mem_cons_of_mem _ (listMax_mem (b :: rest) (by simp))
      · rw [max_eq_left h]
        exact List.mem_cons_self _ _

theorem tpl_layer_premium_witness :
    (0 : ℝ) ≤ sampleDrone.valuegbp ∧ (droneBaseCalc sampleDrone).tplilf ≤ 1 :=
  ⟨by norm_num [sampleDrone],
    (tpl_layer_premium sampleDrone (by norm_num [sampleDrone])).2.2.1⟩

/-- **C6 (amended).** The weight band maps to the source's multiplier table
`0–5kg→1.00, 5–10kg→1.20, 10–20kg→1.60, >20kg→2.50`; a band outside the
enumerated set silently receives the fallback multiplier `2.5` (there is no
`InvalidWeightBand` failure); the final hull rate is `0.06` times the
multiplier and `hullpremium = value × finalrate`. -/
theorem weight_multiplier_lookup (d : DroneRow) :
    (droneBaseCalc d).weightmultiplier = weightmult d.weightband ∧
    weightmult "0 - 5kg" = 1.00 ∧ weightmult "5 - 10kg" = 1.20 ∧
    weightmult "10 - 20kg" = 1.60 ∧ weightmult "> 20kg" = 2.50 ∧
    (∀ band : String,
      band ∉ ["0 - 5kg", "5 - 10kg", "10 - 20kg", "> 20kg"] → weightmult band = 2.5) ∧
    (droneBaseCalc d).finalrate = 0.06 * weightmult d.weightband ∧
    (droneBaseCalc d).hullpremium = d.valuegbp * (droneBaseCalc d).finalrate := by
  refine ⟨rfl, by simp [weightmult], by simp [weightmult], by simp [weightmult],
    by simp [weightmult], ?_, rfl, rfl⟩
  intro band hband
  simp only [List.mem_cons, List.mem_singleton, not_or] at hband
  simp only [weightmult, if_neg hband.1, if_neg hband.2.1, if_neg hband.2.2.1,
    if_neg hband.2.2.2.1]

theorem weight_multiplier_lookup_witness :
    sampleDrone.weightband ∉ ["0 - 5kg", "5 - 10kg", "10 - 20kg", "> 20kg"] ∨
      weightmult "xyz" = 2.5 :=
  Or.inr ((weight_multiplier_lookup sampleDrone).2.2.2.2.2.1 "xyz" (by simp [sampleDrone]))

/-- A concrete drone whose weight band is the heaviest table entry. -/
def heavyDrone : DroneRow :=
  { serialnumber := "HHH-001", valuegbp := 1000, weightband := "> 20kg",
    hasdetachablecamera := false, tpllimit := 0, tplexcess := 0 }

/-- A concrete drone whose weight band is outside the enumerated set. -/
def oddBandDrone : DroneRow :=
  { serialnumber := "OOO-002", valuegbp := 1000, weightband := "massive",
    hasdetachablecamera := false, tpllimit := 0, tplexcess := 0 }

/-- **C6 counterexample.** The `> 20kg` band gets multiplier `2.50`, not the
claimed `2.00`, and an unrecognized band is silently assigned `2.5` instead
of failing with `InvalidWeightBand`. -/
theorem weight_multiplier_counterexample :
    (droneBaseCalc heavyDrone).weightmultiplier = 2.50 ∧
    ¬ (droneBaseCalc heavyDrone).weightmultiplier = 2.00 ∧
    (droneBaseCalc oddBandDrone).weightmultiplier = 2.5 := by
  have h : (droneBaseCalc heavyDrone).weightmultiplier = 2.50 := by
    simp [heavyDrone, weightmult]
  refine ⟨h, ?_, by simp [oddBandDrone, weightmult]⟩
  rw [h]
  norm_num

/-- **C3.** In a single evaluation every camera receives the same rate: the
maximum `finalrate` over drones with a detachable camera (`0` when no such
drone exists), and every camera's premium is its value times that shared
rate. -/
theorem camera_rate_invariant (p : portfolio) (n : Option ℤ) :
    (∀ c ∈ (p.premcalculation n).cameras,
        c.rate = maxrate (p.drones.map droneBaseCalc) ∧
        c.premium = c.valuegbp * maxrate (p.drones.map droneBaseCalc)) ∧
    ((p.drones.map droneBaseCalc).filter (fun d => d.hasdetachablecamera) = [] →
        maxrate (p.drones.map droneBaseCalc) = 0) ∧
    ((p.drones.map droneBaseCalc).filter (fun d => d.hasdetachablecamera) ≠ [] →
        (∀ d ∈ (p.drones.map droneBaseCalc).filter (fun d => d.hasdetachablecamera),
            d.finalrate ≤ maxrate (p.drones.map droneBaseCalc)) ∧
        maxrate (p.drones.map droneBaseCalc) ∈
          ((p.drones.map droneBaseCalc).filter
            (fun d => d.hasdetachablecamera)).map (fun d => d.finalrate)) := by
  refine ⟨?_, ?_, ?_⟩
  · intro c hc
    rw [premcalculation_cameras] at hc
    obtain ⟨c0, hc0, hr, hp, hv⟩ := cameraTierAdjust_mem hc
    simp only [List.mem_map] at hc0
    obtain ⟨c1, _, rfl⟩ := hc0
    simp only [cameraBaseCalc_rate, cameraBaseCalc_premium] at hr hp
    simp only [cameraBaseCalc_valuegbp] at hv
    exact ⟨hr, by rw [hp, hv]⟩
  · intro h
    simp [maxrate, h, listMax]
  · intro h
    constructor
    · intro d hd
      exact le_listMax _ _ (List.mem_map_of_mem (fun d => d.finalrate) hd)
    · exact listMax_mem _ (by simpa using h)

/-- `(l.map f).getD i default = f (l.getD i default)` for an in-range index. -/
theorem getD_map_default {α β : Type} [Inhabited α] [Inhabited β] (f : α → β)
    (l : List α) (i : ℕ) (hi : i < l.length) :
    (l.map f).getD i default = f (l.getD i default) := by
  rw [List.getD_eq_getElem _ _ (by rw [List.length_map]; exact hi), List.getElem_map,
    List.getD_eq_getElem _ _ hi]

/-- **C1 (amended: the flat fallback fee is 150, not 120).** With `n` given
and `0 ≤ n < numdrones`, the `n` drones with the largest `totalprem` (ties
resolved in favour of earlier insertion) keep their computed premiums as
their adjusted ones, and every other drone gets `adjusthullprem = 150` and
`adjusttplprem = 0`; with `n` absent, `n < 0` or `n ≥ numdrones` every
drone's adjusted premiums equal its unadjusted ones; and the `n = 0` outcome
differs from the `n = None` outcome as soon as some drone has a non-flat
premium. -/
theorem drone_tiering (p : portfolio) (nv : ℤ)
    (hser : (p.drones.map (fun d => d.serialnumber)).Nodup) :
    ((0 ≤ nv ∧ nv < (p.drones.length : ℤ)) →
      ∀ i : ℕ, i < p.drones.length →
        ((beatCount ((p.drones.map droneBaseCalc).map (fun d => d.totalprem)) i < nv.toNat →
            ((p.premcalculation (some nv)).drones.getD i default).adjusthullprem =
              ((p.drones.map droneBaseCalc).getD i default).hullpremium ∧
            ((p.premcalculation (some nv)).drones.getD i default).adjusttplprem =
              ((p.drones.map droneBaseCalc).getD i default).tpllayerpremium) ∧
         (nv.toNat ≤ beatCount ((p.drones.map droneBaseCalc).map (fun d => d.totalprem)) i →
            ((p.premcalculation (some nv)).drones.getD i default).adjusthullprem = 150 ∧
            ((p.premcalculation (some nv)).drones.getD i default).adjusttplprem = 0))) ∧
    ((nv < 0 ∨ (p.drones.length : ℤ) ≤ nv) →
      (p.premcalculation (some nv)).drones = p.drones.map droneBaseCalc) ∧
    ((p.premcalculation none).drones = p.drones.map droneBaseCalc) ∧
    ((∃ d ∈ p.drones.map droneBaseCalc, d.hullpremium ≠ 150 ∨ d.tpllayerpremium ≠ 0) →
      (p.premcalculation (some 0)).drones ≠ (p.premcalculation none).drones) := by
  have hser' : ((p.drones.map droneBaseCalc).map (fun d => d.serialnumber)).Nodup := by
    rw [List.map_map]
    exact hser
  refine ⟨?_, ?_, rfl, ?_⟩
  · intro hn i hi
    have hlen : i < (p.drones.map droneBaseCalc).length := by
      rw [List.length_map]
      exact hi
    have hn' : 0 ≤ nv ∧ nv < ((p.drones.map droneBaseCalc).length : ℤ) := by
      rwa [List.length_map]
    rw [premcalculation_drones, droneTierAdjust_getD nv _ hser' hn' i hlen]
    constructor
    · intro hb
      rw [if_pos hb, getD_map_default droneBaseCalc _ _ hi]
      exact ⟨droneBaseCalc_adjusthullprem _, droneBaseCalc_adjusttplprem _⟩
    · intro hb
      rw [if_neg (not_lt.mpr hb)]
      exact ⟨rfl, rfl⟩
  · intro hno
    rw [premcalculation_drones, droneTierAdjust_some, if_neg]
    rintro ⟨h0, hlt⟩
    rw [List.length_map] at hlt
    rcases hno with h | h
    · omega
    · omega
  · rintro ⟨d, hd, hne⟩ heq
    obtain ⟨i, hi', hdi⟩ := List.mem_iff_getElem.mp hd
    have hi : i < p.drones.length := by
      rw [List.length_map] at hi'
      exact hi'
    rw [List.getElem_map] at hdi
    have hlen : 0 < p.drones.length := lt_of_le_of_lt (Nat.zero_le i) hi
    have hn' : (0 : ℤ) ≤ 0 ∧ (0 : ℤ) < ((p.drones.map droneBaseCalc).length : ℤ) := by
      rw [List.length_map]
      exact ⟨le_refl 0, by exact_mod_cast hlen⟩
    have h0 := droneTierAdjust_getD 0 (p.drones.map droneBaseCalc) hser' hn' i
      (by rw [List.length_map]; exact hi)
    rw [if_neg (by simp)] at h0
    have heq' := congrArg (fun l => (l.getD i default).adjusthullprem) heq
    have heq'' := congrArg (fun l => (l.getD i default).adjusttplprem) heq
    simp only [premcalculation_drones, droneTierAdjust_none] at heq' heq''
    rw [h0] at heq' heq''
    have hrow : (p.drones.map droneBaseCalc).getD i default = d := by
      rw [getD_map_default droneBaseCalc _ _ hi, List.getD_eq_getElem _ _ hi]
      exact hdi
    rw [hrow] at heq' heq''
    have hadj : d.adjusthullprem = d.hullpremium := by
      rw [← hdi]
      exact droneBaseCalc_adjusthullprem _
    have htpl : d.adjusttplprem = d.tpllayerpremium := by
      rw [← hdi]
      exact droneBaseCalc_adjusttplprem _
    have hh : (150 : ℝ) = d.hullpremium := by
      rw [← hadj]
      exact heq'
    have ht : (0 : ℝ) = d.tpllayerpremium := by
      rw [← htpl]
      exact heq''
    rcases hne with h | h
    · exact h hh.symm
    · exact h ht.symm

/-- A high-value drone record. -/
def droneA : DroneRow :=
  { serialnumber := "AAA-222", valuegbp := 10000, weightband := "0 - 5kg",
    hasdetachablecamera := true, tpllimit := 1000000, tplexcess := 0 }

/-- A low-value drone record whose hull premium is far below the flat fee. -/
def droneB : DroneRow :=
  { serialnumber := "BBB-222", valuegbp := 100, weightband := "0 - 5kg",
    hasdetachablecamera := false, tpllimit := 0, tplexcess := 0 }

/-- A one-drone portfolio used to pin down the flat fallback fee. -/
def P0 : portfolio :=
  { insured := "Drones R Them", underwriter := "Bichael", broker := "Bon", brokerage := 0.3,
    drones := [droneA] }

/-- **C1 counterexample.** With one drone and `n = 0` the excluded drone's
adjusted hull premium is the source's flat fee `150`, not the claimed
`120`. -/
theorem drone_flat_fee_not_120 :
    ((P0.premcalculation (some 0)).drones.map (fun d => d.adjusthullprem)) = [150] ∧
    ((P0.premcalculation (some 0)).drones.map (fun d => d.adjusthullprem)) ≠ [120] := by
  have h : ((P0.premcalculation (some 0)).drones.map (fun d => d.adjusthullprem)) = [150] := by
    rw [premcalculation_drones, droneTierAdjust_some, if_pos (by norm_num [P0])]
    simp [P0, nlargestBy]
  refine ⟨h, ?_⟩
  rw [h]
  intro hc
  rw [List.cons.injEq] at hc
  have : (150 : ℝ) = 120 := hc.1
  norm_num at this

/-- A two-drone portfolio with distinct serial numbers. -/
def twoDronePortfolio : portfolio :=
  { insured := "Drones R Them", underwriter := "Bichael", broker := "Bon", brokerage := 0.3,
    drones := [droneA, droneB] }

theorem drone_tiering_witness :
    (twoDronePortfolio.drones.map (fun d => d.serialnumber)).Nodup ∧
    (twoDronePortfolio.premcalculation (some 5)).drones =
      twoDronePortfolio.drones.map droneBaseCalc := by
  have hser : (twoDronePortfolio.drones.map (fun d => d.serialnumber)).Nodup := by
    simp [twoDronePortfolio, droneA, droneB]
  exact ⟨hser, (drone_tiering twoDronePortfolio 5 hser).2.1
    (Or.inr (by norm_num [twoDronePortfolio]))⟩

/-- **C2 (amended: the flat camera fee is 50, not 40).** With `n` given,
camera tiering applies exactly when there are more cameras than drones
(never when `n` is absent): the tier size is
`camlimit = max(n, number of drones with a detachable camera)`, the
`camlimit` cameras with the largest `valuegbp` (ties to the earlier row)
keep `adjustcamprem = premium`, the rest get `adjustcamprem = 50`, and when
`camlimit ≥ numcameras` every camera keeps its full premium. -/
theorem camera_tiering (p : portfolio) (nv : ℤ)
    (hser : (p.cameras.map (fun c => c.serialnumber)).Nodup) :
    ((p.premcalculation none).cameras =
      p.cameras.map (cameraBaseCalc (maxrate (p.drones.map droneBaseCalc)))) ∧
    (p.cameras.length ≤ p.drones.length →
      (p.premcalculation (some nv)).cameras =
        p.cameras.map (cameraBaseCalc (maxrate (p.drones.map droneBaseCalc)))) ∧
    (p.drones.length < p.cameras.length →
      ∀ i : ℕ, i < p.cameras.length →
        ((beatCount ((p.cameras.map
              (cameraBaseCalc (maxrate (p.drones.map droneBaseCalc)))).map
              (fun c => c.valuegbp)) i <
            (max nv (((p.drones.map droneBaseCalc).filter
              (fun d => d.hasdetachablecamera)).length : ℤ)).toNat →
          ((p.premcalculation (some nv)).cameras.getD i default).adjustcamprem =
            ((p.cameras.map (cameraBaseCalc (maxrate (p.drones.map droneBaseCalc)))).getD
              i default).premium) ∧
        ((max nv (((p.drones.map droneBaseCalc).filter
              (fun d => d.hasdetachablecamera)).length : ℤ)).toNat ≤
            beatCount ((p.cameras.map
              (cameraBaseCalc (maxrate (p.drones.map droneBaseCalc)))).map
              (fun c => c.valuegbp)) i →
          ((p.premcalculation (some nv)).cameras.getD i default).adjustcamprem = 50))) ∧
    (p.cameras.length ≤
        (max nv (((p.drones.map droneBaseCalc).filter
          (fun d => d.hasdetachablecamera)).length : ℤ)).toNat →
      (p.premcalculation (some nv)).cameras =
        p.cameras.map (cameraBaseCalc (maxrate (p.drones.map droneBaseCalc)))) := by
  have hser' : ((p.cameras.map
      (cameraBaseCalc (maxrate (p.drones.map droneBaseCalc)))).map
      (fun c => c.serialnumber)).Nodup := by
    rw [List.map_map]
    exact hser
  refine ⟨rfl, ?_, ?_, ?_⟩
  · intro hle
    rw [premcalculation_cameras]
    exact cameraTierAdjust_of_le _ _ _ (by rw [List.length_map, List.length_map]; exact hle)
  · intro hgt i hi
    have hgt' : (p.cameras.map
        (cameraBaseCalc (maxrate (p.drones.map droneBaseCalc)))).length >
        (p.drones.map droneBaseCalc).length := by
      rw [List.length_map, List.length_map]
      exact hgt
    have hi' : i < (p.cameras.map
        (cameraBaseCalc (maxrate (p.drones.map droneBaseCalc)))).length := by
      rw [List.length_map]
      exact hi
    rw [premcalculation_cameras, cameraTierAdjust_getD nv _ _ hser' hgt' i hi']
    constructor
    · intro hb
      rw [if_pos hb, getD_map_default (cameraBaseCalc _) _ _ hi]
      rfl
    · intro hb
      rw [if_neg (not_lt.mpr hb)]
  · intro hcl
    rw [premcalculation_cameras]
    exact cameraTierAdjust_keep_of_le _ _ _ (by rw [List.length_map]; exact hcl)

/-- A concrete camera record. -/
def camX : CameraRow := { serialnumber := "XXX-777", valuegbp := 1500 }

/-- A one-camera, no-drone portfolio (more cameras than drones). -/
def P2 : portfolio :=
  { insured := "Drones R Them", underwriter := "Bichael", broker := "Bon", brokerage := 0.3,
    cameras := [camX] }

/-- **C2 counterexample.** With one camera, no drones and `n = 0` the
excluded camera's adjusted premium is the source's flat fee `50`, not the
claimed `40`. -/
theorem camera_flat_fee_not_40 :
    ((P2.premcalculation (some 0)).cameras.map (fun c => c.adjustcamprem)) = [50] ∧
    ((P2.premcalculation (some 0)).cameras.map (fun c => c.adjustcamprem)) ≠ [40] := by
  have h : ((P2.premcalculation (some 0)).cameras.map (fun c => c.adjustcamprem)) = [50] := by
    rw [premcalculation_cameras, cameraTierAdjust_some, if_pos (by simp [P2])]
    simp [P2, camX, nlargestBy]
  refine ⟨h, ?_⟩
  rw [h]
  intro hc
  rw [List.cons.injEq] at hc
  have : (50 : ℝ) = 40 := hc.1
  norm_num at this

/-- A one-drone, one-camera portfolio. -/
def P3 : portfolio :=
  { insured := "Drones R Them", underwriter := "Bichael", broker := "Bon", brokerage := 0.3,
    drones := [droneA], cameras := [camX] }

theorem camera_tiering_witness :
    (P3.cameras.map (fun c => c.serialnumber)).Nodup ∧
    (P3.premcalculation (some 2)).cameras =
      P3.cameras.map (cameraBaseCalc (maxrate (P3.drones.map droneBaseCalc))) := by
  have hser : (P3.cameras.map (fun c => c.serialnumber)).Nodup := by
    simp [P3, camX]
  exact ⟨hser, (camera_tiering P3 2 hser).2.1 (by simp [P3])⟩

/-- **C7.** Net totals are the sums of the adjusted premium columns, each
category's gross is its net divided by `1 − brokerage`, and the `Total` row
is the component-wise sum of the three category rows (not a re-derived
ratio). -/
theorem summaries_aggregation (p : portfolio) (n : Option ℤ)
    (_hb : 0 ≤ p.brokerage ∧ p.brokerage < 1) :
    (portfolio.summaries (p.premcalculation n)).droneHull.net =
      ((p.premcalculation n).drones.map (fun d => d.adjusthullprem)).sum ∧
    (portfolio.summaries (p.premcalculation n)).droneTPL.net =
      ((p.premcalculation n).drones.map (fun d => d.adjusttplprem)).sum ∧
    (portfolio.summaries (p.premcalculation n)).cameraHull.net =
      ((p.premcalculation n).cameras.map (fun c => c.adjustcamprem)).sum ∧
    (portfolio.summaries (p.premcalculation n)).droneHull.gross =
      (portfolio.summaries (p.premcalculation n)).droneHull.net / (1 - p.brokerage) ∧
    (portfolio.summaries (p.premcalculation n)).droneTPL.gross =
      (portfolio.summaries (p.premcalculation n)).droneTPL.net / (1 - p.brokerage) ∧
    (portfolio.summaries (p.premcalculation n)).cameraHull.gross =
      (portfolio.summaries (p.premcalculation n)).cameraHull.net / (1 - p.brokerage) ∧
    (portfolio.summaries (p.premcalculation n)).total.net =
      (portfolio.summaries (p.premcalculation n)).droneHull.net +
      (portfolio.summaries (p.premcalculation n)).droneTPL.net +
      (portfolio.summaries (p.premcalculation n)).cameraHull.net ∧
    (portfolio.summaries (p.premcalculation n)).total.gross =
      (portfolio.summaries (p.premcalculation n)).droneHull.gross +
      (portfolio.summaries (p.premcalculation n)).droneTPL.gross +
      (portfolio.summaries (p.premcalculation n)).cameraHull.gross :=
  ⟨rfl, rfl, rfl, rfl, rfl, rfl, rfl, rfl⟩

theorem summaries_aggregation_witness :
    (0 ≤ P3.brokerage ∧ P3.brokerage < 1) ∧
    (portfolio.summaries (P3.premcalculation none)).droneHull.net =
      ((P3.premcalculation none).drones.map (fun d => d.adjusthullprem)).sum :=
  ⟨by norm_num [P3], (summaries_aggregation P3 none (by norm_num [P3])).1⟩

theorem droneBaseCalc_idem (d : DroneRow) :
    droneBaseCalc (droneBaseCalc d) = droneBaseCalc d := rfl

theorem droneBaseCalc_tierFlat (cond : Prop) [Decidable cond] (d : DroneRow) :
    droneBaseCalc (if cond then d else { d with adjusthullprem := 150, adjusttplprem := 0 }) =
      droneBaseCalc d := by
  split <;> rfl

theorem map_droneBaseCalc_tierAdjust (n : Option ℤ) (l : List DroneRow) :
    (droneTierAdjust n (l.map droneBaseCalc)).map droneBaseCalc = l.map droneBaseCalc := by
  rcases n with _ | nv
  · rw [droneTierAdjust_none, List.map_map]
    exact List.map_congr_left fun d _ => droneBaseCalc_idem d
  · rw [droneTierAdjust_some]
    split
    · rw [List.map_map, List.map_map]
      refine List.map_congr_left fun d _ => ?_
      simp only [Function.comp_apply]
      rw [droneBaseCalc_tierFlat]
      exact droneBaseCalc_idem d
    · rw [List.map_map]
      exact List.map_congr_left fun d _ => droneBaseCalc_idem d

theorem cameraBaseCalc_idem (mr : ℝ) (c : CameraRow) :
    cameraBaseCalc mr (cameraBaseCalc mr c) = cameraBaseCalc mr c := rfl

theorem cameraBaseCalc_tierFlat (mr : ℝ) (cond : Prop) [Decidable cond] (c : CameraRow) :
    cameraBaseCalc mr (if cond then c else { c with adjustcamprem := 50 }) =
      cameraBaseCalc mr c := by
  split <;> rfl

theorem map_cameraBaseCalc_tierAdjust (mr : ℝ) (n : Option ℤ) (ds : List DroneRow)
    (l : List CameraRow) :
    (cameraTierAdjust n ds (l.map (cameraBaseCalc mr))).map (cameraBaseCalc mr) =
      l.map (cameraBaseCalc mr) := by
  rcases n with _ | nv
  · rw [cameraTierAdjust_none, List.map_map]
    exact List.map_congr_left fun c _ => cameraBaseCalc_idem mr c
  · rw [cameraTierAdjust_some]
    split
    · rw [List.map_map, List.map_map]
      refine List.map_congr_left fun c _ => ?_
      simp only [Function.comp_apply]
      rw [cameraBaseCalc_tierFlat]
      exact cameraBaseCalc_idem mr c
    · rw [List.map_map]
      exact List.map_congr_left fun c _ => cameraBaseCalc_idem mr c

/-- **C8.** The calculation step recomputes every derived column from the raw
columns only, so running it twice with the same `n` yields the same rows and
the same summary as running it once. -/
theorem premcalculation_idempotent (p : portfolio) (n : Option ℤ) :
    (p.premcalculation n).premcalculation n = p.premcalculation n ∧
    portfolio.summaries ((p.premcalculation n).premcalculation n) =
      portfolio.summaries (p.premcalculation n) := by
  have h1 : (p.premcalculation n).drones.map droneBaseCalc = p.drones.map droneBaseCalc := by
    rw [premcalculation_drones]
    exact map_droneBaseCalc_tierAdjust n p.drones
  have h2 : (p.premcalculation n).cameras.map
      (cameraBaseCalc (maxrate (p.drones.map droneBaseCalc))) =
      p.cameras.map (cameraBaseCalc (maxrate (p.drones.map droneBaseCalc))) := by
    rw [premcalculation_cameras]
    exact map_cameraBaseCalc_tierAdjust _ n _ p.cameras
  have hmain : (p.premcalculation n).premcalculation n = p.premcalculation n := by
    show { p.premcalculation n with
        drones := droneTierAdjust n ((p.premcalculation n).drones.map droneBaseCalc)
        cameras := cameraTierAdjust n ((p.premcalculation n).drones.map droneBaseCalc)
          ((p.premcalculation n).cameras.map
            (cameraBaseCalc (maxrate ((p.premcalculation n).drones.map droneBaseCalc)))) } =
      p.premcalculation n
    rw [h1, h2]
    rfl
  exact ⟨hmain, by rw [hmain]⟩

theorem baseA_serial : (droneBaseCalc droneA).serialnumber = "AAA-222" := rfl

theorem baseB_serial : (droneBaseCalc droneB).serialnumber = "BBB-222" := rfl

theorem baseA_hull : (droneBaseCalc droneA).hullpremium = 600 := by
  norm_num [droneA, basehull, weightmult]

theorem baseA_tpl : (droneBaseCalc droneA).tpllayerpremium = 200 := by
  norm_num [droneA, basetpl, riebesell_base_value, riebesell_zero, min_def, max_def]

theorem baseB_hull : (droneBaseCalc droneB).hullpremium = 6 := by
  norm_num [droneB, basehull, weightmult]

theorem baseB_tpl : (droneBaseCalc droneB).tpllayerpremium = 0 := by
  norm_num [droneB, basetpl, riebesell_zero, min_def, max_def]

theorem baseA_totalprem : (droneBaseCalc droneA).totalprem = 800 := by
  rw [droneBaseCalc_totalprem, baseA_hull, baseA_tpl]
  norm_num

theorem baseB_totalprem : (droneBaseCalc droneB).totalprem = 6 := by
  rw [droneBaseCalc_totalprem, baseB_hull, baseB_tpl]
  norm_num

theorem twoDrone_none :
    (twoDronePortfolio.premcalculation none).drones =
      [droneBaseCalc droneA, droneBaseCalc droneB] := rfl

theorem twoDrone_cameras (n : Option ℤ) :
    (twoDronePortfolio.premcalculation n).cameras = [] := by
  rcases n with _ | nv
  · rfl
  · rfl

theorem twoDrone_order :
    keyOrder (fun d : DroneRow => d.totalprem) (0, droneBaseCalc droneA)
      (1, droneBaseCalc droneB) :=
  Or.inl (by
    show (droneBaseCalc droneB).totalprem < (droneBaseCalc droneA).totalprem
    rw [baseA_totalprem, baseB_totalprem]
    norm_num)

theorem twoDrone_sorted :
    (([droneBaseCalc droneA, droneBaseCalc droneB].enum).insertionSort
      (keyOrder (fun d => d.totalprem))) =
    [(0, droneBaseCalc droneA), (1, droneBaseCalc droneB)] := by
  show (if keyOrder (fun d : DroneRow => d.totalprem) (0, droneBaseCalc droneA)
        (1, droneBaseCalc droneB) then
      [(0, droneBaseCalc droneA), (1, droneBaseCalc droneB)]
    else [(1, droneBaseCalc droneB), (0, droneBaseCalc droneA)]) =
    [(0, droneBaseCalc droneA), (1, droneBaseCalc droneB)]
  rw [if_pos twoDrone_order]

theorem twoDrone_topserials :
    (nlargestBy (fun d => d.totalprem) (1 : ℤ).toNat
        [droneBaseCalc droneA, droneBaseCalc droneB]).map (fun d => d.serialnumber) =
      ["AAA-222"] := by
  unfold nlargestBy
  rw [twoDrone_sorted]
  rfl

theorem twoDrone_tier :
    (twoDronePortfolio.premcalculation (some 1)).drones =
      [droneBaseCalc droneA,
        { droneBaseCalc droneB with adjusthullprem := 150, adjusttplprem := 0 }] := by
  rw [premcalculation_drones]
  show droneTierAdjust (some 1) [droneBaseCalc droneA, droneBaseCalc droneB] = _
  rw [droneTierAdjust_some, if_pos (by norm_num), twoDrone_topserials]
  simp only [List.map_cons, List.map_nil, baseA_serial, baseB_serial]
  rw [if_pos (List.mem_cons_self _ _), if_neg (by simp)]

theorem baseA_adjusthull : (droneBaseCalc droneA).adjusthullprem = 600 := baseA_hull

theorem baseA_adjusttpl : (droneBaseCalc droneA).adjusttplprem = 200 := baseA_tpl

theorem baseB_adjusthull : (droneBaseCalc droneB).adjusthullprem = 6 := baseB_hull

theorem baseB_adjusttpl : (droneBaseCalc droneB).adjusttplprem = 0 := baseB_tpl

theorem twoDrone_total_none :
    (portfolio.summaries (twoDronePortfolio.premcalculation none)).total.net = 806 := by
  simp only [portfolio.summaries, twoDrone_none, twoDrone_cameras, List.map_cons,
    List.map_nil, List.sum_cons, List.sum_nil, baseA_adjusthull, baseA_adjusttpl,
    baseB_adjusthull, baseB_adjusttpl]
  norm_num

theorem twoDrone_total_tier :
    (portfolio.summaries (twoDronePortfolio.premcalculation (some 1))).total.net = 950 := by
  simp only [portfolio.summaries, twoDrone_tier, twoDrone_cameras, List.map_cons,
    List.map_nil, List.sum_cons, List.sum_nil, baseA_adjusthull, baseA_adjusttpl]
  norm_num

/-- **C10.** The flat fallback fee is not a discount floor: in the two-drone
portfolio with `n = 1`, the out-of-tier drone's computed hull premium (6) is
below the flat fee, its adjusted hull premium is 150, strictly above its
unadjusted hull premium and its unadjusted total premium, and the
portfolio's aggregate net premium strictly increases under the
adjustment. -/
theorem flat_fee_not_floor :
    (droneBaseCalc droneB).hullpremium < 150 ∧
    ((twoDronePortfolio.premcalculation (some 1)).drones.getD 1 default).adjusthullprem =
      150 ∧
    (droneBaseCalc droneB).hullpremium <
      ((twoDronePortfolio.premcalculation (some 1)).drones.getD 1 default).adjusthullprem ∧
    (droneBaseCalc droneB).totalprem <
      ((twoDronePortfolio.premcalculation (some 1)).drones.getD 1 default).adjusthullprem +
      ((twoDronePortfolio.premcalculation (some 1)).drones.getD 1 default).adjusttplprem ∧
    (portfolio.summaries (twoDronePortfolio.premcalculation none)).total.net <
      (portfolio.summaries (twoDronePortfolio.premcalculation (some 1))).total.net := by
  have hrow : (twoDronePortfolio.premcalculation (some 1)).drones.getD 1 default =
      { droneBaseCalc droneB with adjusthullprem := 150, adjusttplprem := 0 } := by
    rw [twoDrone_tier]
    rfl
  refine ⟨?_, ?_, ?_, ?_, ?_⟩
  · rw [baseB_hull]
    norm_num
  · rw [hrow]
  · rw [hrow, baseB_hull]
    norm_num
  · rw [hrow, baseB_totalprem]
    norm_num
  · rw [twoDrone_total_none, twoDrone_total_tier]
    norm_num

/-- A one-camera, no-drone portfolio. -/
def cameraOnlyPortfolio : portfolio :=
  { insured := "Drones R Us", underwriter := "Michael", broker := "Aon",
    brokerage := 0.3, cameras := [{ serialnumber := "ZZZ-999", valuegbp := 5000 }] }

theorem camera_rate_invariant_witness :
    (cameraOnlyPortfolio.drones.map droneBaseCalc).filter
        (fun d => d.hasdetachablecamera) = [] ∧
      maxrate (cameraOnlyPortfolio.drones.map droneBaseCalc) = 0 :=
  ⟨rfl, (camera_rate_invariant cameraOnlyPortfolio none).2.1 rfl⟩

/-- One cell of a submitted record (a Python dict entry): the key may be
absent from the dict, present with value `None`, or present with a value.
When the column exists in the frame, both `absent` and `null` become `NaN`
and are caught by `.isnull()`. -/
inductive Cell (α : Type) where
  | absent : Cell α
  | null : Cell α
  | val : α → Cell α

/-- The presence state of a cell — the only information the null-scanning
check of `dataframe` looks at. -/
inductive CState where
  | absent : CState
  | null : CState
  | filled : CState
deriving DecidableEq

def cellState {α : Type} : Cell α → CState
  | .absent => .absent
  | .null => .null
  | .val _ => .filled

def Cell.getD {α : Type} : Cell α → α → α
  | .val a, _ => a
  | _, d => d

/-- A submitted drone record. -/
structure DroneData where
  serialnumber : Cell String := .absent
  valuegbp : Cell ℝ := .absent
  weightband : Cell String := .absent
  hasdetachablecamera : Cell Bool := .absent
  tpllimit : Cell ℝ := .absent
  tplexcess : Cell ℝ := .absent

/-- A submitted camera record. -/
structure CameraData where
  serialnumber : Cell String := .absent
  valuegbp : Cell ℝ := .absent

def DroneData.colState (r : DroneData) (col : String) : CState :=
  if col = "valuegbp" then cellState r.valuegbp
  else if col = "weightband" then cellState r.weightband
  else if col = "hasdetachablecamera" then cellState r.hasdetachablecamera
  else if col = "tpllimit" then cellState r.tpllimit
  else if col = "tplexcess" then cellState r.tplexcess
  else if col = "serialnumber" then cellState r.serialnumber
  else .absent

def CameraData.colState (r : CameraData) (col : String) : CState :=
  if col = "valuegbp" then cellState r.valuegbp
  else if col = "serialnumber" then cellState r.serialnumber
  else .absent

/-- The two ways `portfolio.dataframe` can fail: the explicit
`ValueError(" Missing information on '<col>' for '<assettype>'.")` raised by
the checker loop, and the pandas `KeyError` raised by `dfnew[col]` when the
column is absent from every submitted record (including an empty list). -/
inductive IngestError where
  | missingField : String → String → IngestError
  | keyError : String → IngestError
deriving DecidableEq

/-- `requiredinfo["drone"]` (source line 272). -/
def requiredinfoDrone : List String :=
  ["valuegbp", "weightband", "hasdetachablecamera", "tpllimit", "tplexcess"]

/-- `requiredinfo["camera"]` (source line 273). -/
def requiredinfoCamera : List String := ["valuegbp"]

/-- The checker loop of `dataframe` (source lines 274–276): for each required
column in order, `dfnew[col]` raises `KeyError` when the column is absent
from the whole frame, and otherwise `ValueError` when `.isnull().any()`,
i.e. when some record leaves the cell absent or `None`. -/
def runColChecks (states : List (String → CState)) (aty : String) :
    List String → Except IngestError Unit
  | [] => .ok ()
  | col :: rest =>
    if ∀ s ∈ states, s col = CState.absent then .error (.keyError col)
    else if ∃ s ∈ states, s col ≠ CState.filled then .error (.missingField aty col)
    else runColChecks states aty rest

/-- The row appended for a validated drone record (for validated records
every required cell is a `val`; the defaults only stand in for optional
cells). -/
def toDroneRow (r : DroneData) : DroneRow :=
  { serialnumber := r.serialnumber.getD ""
    valuegbp := r.valuegbp.getD 0
    weightband := r.weightband.getD ""
    hasdetachablecamera := r.hasdetachablecamera.getD false
    tpllimit := r.tpllimit.getD 0
    tplexcess := r.tplexcess.getD 0 }

def toCameraRow (r : CameraData) : CameraRow :=
  { serialnumber := r.serialnumber.getD "", valuegbp := r.valuegbp.getD 0 }

/-- `portfolio.dataframe(data, "drone")` (source lines 268–277): run the
missing-information checks and, only on success, append the new rows after
the previously ingested ones (`pd.concat` with `ignore_index=True`). -/
def portfolio.dataframeDrones (p : portfolio) (data : List DroneData) :
    Except IngestError portfolio :=
  match runColChecks (data.map (fun r => r.colState)) "drone" requiredinfoDrone with
  | .error e => .error e
  | .ok _ => .ok { p with drones := p.drones ++ data.map toDroneRow }

/-- `portfolio.dataframe(data, "camera")`, analogously. -/
def portfolio.dataframeCameras (p : portfolio) (data : List CameraData) :
    Except IngestError portfolio :=
  match runColChecks (data.map (fun r => r.colState)) "camera" requiredinfoCamera with
  | .error e => .error e
  | .ok _ => .ok { p with cameras := p.cameras ++ data.map toCameraRow }

theorem runColChecks_cons (states : List (String → CState)) (aty col : String)
    (rest : List String) :
    runColChecks states aty (col :: rest) =
      if ∀ s ∈ states, s col = CState.absent then .error (.keyError col)
      else if ∃ s ∈ states, s col ≠ CState.filled then .error (.missingField aty col)
      else runColChecks states aty rest := rfl

theorem runColChecks_ok (states : List (String → CState)) (aty : String) :
    ∀ cols : List String, states ≠ [] →
      (∀ s ∈ states, ∀ col ∈ cols, s col = CState.filled) →
      runColChecks states aty cols = .ok ()
  | [], _, _ => rfl
  | col :: rest, hne, h => by
    rw [runColChecks_cons]
    have h1 : ¬ ∀ s ∈ states, s col = CState.absent := by
      intro hall
      obtain ⟨s0, hs0⟩ := List.exists_mem_of_ne_nil states hne
      have h1 := hall s0 hs0
      rw [h s0 hs0 col (List.mem_cons_self _ _)] at h1
      exact CState.noConfusion h1
    have h2 : ¬ ∃ s ∈ states, s col ≠ CState.filled := by
      rintro ⟨s, hs, hneq⟩
      exact hneq (h s hs col (List.mem_cons_self _ _))
    rw [if_neg h1, if_neg h2]
    exact runColChecks_ok states aty rest hne
      fun s hs c hc => h s hs c (List.mem_cons_of_mem _ hc)

theorem runColChecks_error (states : List (String → CState)) (aty : String) :
    ∀ cols : List String,
      ((∃ s ∈ states, ∃ col ∈ cols, s col ≠ CState.filled) ∨
        (states = [] ∧ cols ≠ [])) →
      ∃ e, runColChecks states aty cols = .error e
  | [], h => by
    rcases h with ⟨s, _, col, hcol, _⟩ | ⟨_, hne⟩
    · exact absurd hcol (List.not_mem_nil col)
    · exact absurd rfl hne
  | col :: rest, h => by
    simp only [runColChecks_cons]
    by_cases h1 : ∀ s ∈ states, s col = CState.absent
    · exact ⟨.keyError col, by rw [if_pos h1]⟩
    · by_cases h2 : ∃ s ∈ states, s col ≠ CState.filled
      · exact ⟨.missingField aty col, by rw [if_neg h1, if_pos h2]⟩
      · have hnext : (∃ s ∈ states, ∃ c ∈ rest, s c ≠ CState.filled) ∨
            (states = [] ∧ rest ≠ []) := by
          rcases h with ⟨s, hs, c, hc, hneq⟩ | ⟨hst, _⟩
          · rcases List.mem_cons.mp hc with rfl | hc'
            · exact absurd ⟨s, hs, hneq⟩ h2
            · exact Or.inl ⟨s, hs, c, hc', hneq⟩
          · subst hst
            exact absurd (fun s hs => absurd hs (List.not_mem_nil s)) h1
        obtain ⟨e, he⟩ := runColChecks_error states aty rest hnext
        exact ⟨e, by rw [if_neg h1, if_neg h2]; exact he⟩

/-- The checker loop raises for the **first** required column (in the fixed
`requiredinfo` order) that fails: if every earlier column passes both checks
and the current one fails, the error is `KeyError` when that column is
absent from the whole frame and the `MissingField` `ValueError`
otherwise. -/
theorem runColChecks_first_bad (states : List (String → CState)) (aty : String) :
    ∀ (pre : List String) (col : String) (post : List String),
      (∀ c ∈ pre, ¬(∀ s ∈ states, s c = CState.absent) ∧
        ¬(∃ s ∈ states, s c ≠ CState.filled)) →
      ((∀ s ∈ states, s col = CState.absent) ∨ (∃ s ∈ states, s col ≠ CState.filled)) →
      runColChecks states aty (pre ++ col :: post) =
        if ∀ s ∈ states, s col = CState.absent then Except.error (.keyError col)
        else Except.error (.missingField aty col)
  | [], col, post, _, hbad => by
    rw [List.nil_append, runColChecks_cons]
    by_cases h1 : ∀ s ∈ states, s col = CState.absent
    · rw [if_pos h1, if_pos h1]
    · rw [if_neg h1, if_neg h1, if_pos (hbad.resolve_left h1)]
  | c :: pre, col, post, hpre, hbad => by
    rw [List.cons_append, runColChecks_cons]
    obtain ⟨h1, h2⟩ := hpre c (List.mem_cons_self _ _)
    rw [if_neg h1, if_neg h2]
    exact runColChecks_first_bad states aty pre col post
      (fun d hd => hpre d (List.mem_cons_of_mem _ hd)) hbad

/-- **C9 (amended).** Ingestion is validated and atomic: for a non-empty
submission in which every required field of every record is present, all
rows are appended in order after the previously ingested ones; when a
required field is null or absent in some record (or the submission is
empty) the call fails with an error before anything is appended, and the
error is determined by the **first** required column, in the code's fixed
check order, that is null or absent somewhere: a pandas `KeyError` naming
that column when it is absent from every submitted record (in particular on
an empty submission), and the `MissingField`-style `ValueError` for that
column otherwise. -/
theorem dataframe_validation (p : portfolio) (ddata : List DroneData)
    (cdata : List CameraData) :
    ((ddata ≠ [] ∧
        ∀ r ∈ ddata, ∀ col ∈ requiredinfoDrone, r.colState col = CState.filled) →
      p.dataframeDrones ddata = .ok { p with drones := p.drones ++ ddata.map toDroneRow }) ∧
    (((∃ r ∈ ddata, ∃ col ∈ requiredinfoDrone, r.colState col ≠ CState.filled) ∨
        ddata = []) →
      ∃ e, p.dataframeDrones ddata = .error e) ∧
    (∀ (pre : List String) (col : String) (post : List String),
      requiredinfoDrone = pre ++ col :: post →
      (∀ c ∈ pre, (∃ r ∈ ddata, r.colState c ≠ CState.absent) ∧
        (∀ r ∈ ddata, r.colState c = CState.filled)) →
      ((∀ r ∈ ddata, r.colState col = CState.absent) ∨
        (∃ r ∈ ddata, r.colState col ≠ CState.filled)) →
      p.dataframeDrones ddata =
        if ∀ r ∈ ddata, r.colState col = CState.absent then
          Except.error (.keyError col)
        else Except.error (.missingField "drone" col)) ∧
    ((cdata ≠ [] ∧
        ∀ r ∈ cdata, ∀ col ∈ requiredinfoCamera, r.colState col = CState.filled) →
      p.dataframeCameras cdata =
        .ok { p with cameras := p.cameras ++ cdata.map toCameraRow }) ∧
    (((∃ r ∈ cdata, ∃ col ∈ requiredinfoCamera, r.colState col ≠ CState.filled) ∨
        cdata = []) →
      ∃ e, p.dataframeCameras cdata = .error e) ∧
    (∀ (pre : List String) (col : String) (post : List String),
      requiredinfoCamera = pre ++ col :: post →
      (∀ c ∈ pre, (∃ r ∈ cdata, r.colState c ≠ CState.absent) ∧
        (∀ r ∈ cdata, r.colState c = CState.filled)) →
      ((∀ r ∈ cdata, r.colState col = CState.absent) ∨
        (∃ r ∈ cdata, r.colState col ≠ CState.filled)) →
      p.dataframeCameras cdata =
        if ∀ r ∈ cdata, r.colState col = CState.absent then
          Except.error (.keyError col)
        else Except.error (.missingField "camera" col)) := by
  refine ⟨?_, ?_, ?_, ?_, ?_, ?_⟩
  · rintro ⟨hne, hfill⟩
    have hok := runColChecks_ok (ddata.map (fun r => r.colState)) "drone" requiredinfoDrone
      (fun hnil => hne (List.map_eq_nil_iff.mp hnil))
      (by
        intro s hs col hc
        obtain ⟨r, hr, rfl⟩ := List.mem_map.mp hs
        exact hfill r hr col hc)
    unfold portfolio.dataframeDrones
    rw [hok]
  · intro hbad
    have hprem : (∃ s ∈ ddata.map (fun r => r.colState), ∃ col ∈ requiredinfoDrone,
        s col ≠ CState.filled) ∨
        (ddata.map (fun r => r.colState) = [] ∧ requiredinfoDrone ≠ []) := by
      rcases hbad with ⟨r, hr, col, hc, hneq⟩ | hnil
      · exact Or.inl ⟨r.colState, List.mem_map_of_mem _ hr, col, hc, hneq⟩
      · subst hnil
        exact Or.inr ⟨rfl, by simp [requiredinfoDrone]⟩
    obtain ⟨e, he⟩ := runColChecks_error _ "drone" requiredinfoDrone hprem
    exact ⟨e, by unfold portfolio.dataframeDrones; rw [he]⟩
  · intro pre col post heq hpre hbad
    have hpre' : ∀ c ∈ pre,
        ¬(∀ s ∈ ddata.map (fun r => r.colState), s c = CState.absent) ∧
        ¬(∃ s ∈ ddata.map (fun r => r.colState), s c ≠ CState.filled) := by
      intro c hc
      constructor
      · intro hall
        obtain ⟨r, hr, hne⟩ := (hpre c hc).1
        exact hne (hall _ (List.mem_map_of_mem _ hr))
      · rintro ⟨s, hs, hne⟩
        obtain ⟨r, hr, rfl⟩ := List.mem_map.mp hs
        exact hne ((hpre c hc).2 r hr)
    have hbad' : (∀ s ∈ ddata.map (fun r => r.colState), s col = CState.absent) ∨
        (∃ s ∈ ddata.map (fun r => r.colState), s col ≠ CState.filled) := by
      rcases hbad with h | ⟨r, hr, hne⟩
      · refine Or.inl ?_
        intro s hs
        obtain ⟨r, hr, rfl⟩ := List.mem_map.mp hs
        exact h r hr
      · exact Or.inr ⟨r.colState, List.mem_map_of_mem _ hr, hne⟩
    have hrun := runColChecks_first_bad (ddata.map (fun r => r.colState)) "drone"
      pre col post hpre' hbad'
    rw [← heq] at hrun
    by_cases habs : ∀ r ∈ ddata, r.colState col = CState.absent
    · have habs' : ∀ s ∈ ddata.map (fun r => r.colState), s col = CState.absent := by
        intro s hs
        obtain ⟨r, hr, rfl⟩ := List.mem_map.mp hs
        exact habs r hr
      rw [if_pos habs'] at hrun
      rw [if_pos habs]
      unfold portfolio.dataframeDrones
      rw [hrun]
    · have habs' : ¬ ∀ s ∈ ddata.map (fun r => r.colState), s col = CState.absent :=
        fun hall => habs fun r hr => hall _ (List.mem_map_of_mem _ hr)
      rw [if_neg habs'] at hrun
      rw [if_neg habs]
      unfold portfolio.dataframeDrones
      rw [hrun]
  · rintro ⟨hne, hfill⟩
    have hok := runColChecks_ok (cdata.map (fun r => r.colState)) "camera" requiredinfoCamera
      (fun hnil => hne (List.map_eq_nil_iff.mp hnil))
      (by
        intro s hs col hc
        obtain ⟨r, hr, rfl⟩ := List.mem_map.mp hs
        exact hfill r hr col hc)
    unfold portfolio.dataframeCameras
    rw [hok]
  · intro hbad
    have hprem : (∃ s ∈ cdata.map (fun r => r.colState), ∃ col ∈ requiredinfoCamera,
        s col ≠ CState.filled) ∨
        (cdata.map (fun r => r.colState) = [] ∧ requiredinfoCamera ≠ []) := by
      rcases hbad with ⟨r, hr, col, hc, hneq⟩ | hnil
      · exact Or.inl ⟨r.colState, List.mem_map_of_mem _ hr, col, hc, hneq⟩
      · subst hnil
        exact Or.inr ⟨rfl, by simp [requiredinfoCamera]⟩
    obtain ⟨e, he⟩ := runColChecks_error _ "camera" requiredinfoCamera hprem
    exact ⟨e, by unfold portfolio.dataframeCameras; rw [he]⟩
  · intro pre col post heq hpre hbad
    have hpre' : ∀ c ∈ pre,
        ¬(∀ s ∈ cdata.map (fun r => r.colState), s c = CState.absent) ∧
        ¬(∃ s ∈ cdata.map (fun r => r.colState), s c ≠ CState.filled) := by
      intro c hc
      constructor
      · intro hall
        obtain ⟨r, hr, hne⟩ := (hpre c hc).1
        exact hne (hall _ (List.mem_map_of_mem _ hr))
      · rintro ⟨s, hs, hne⟩
        obtain ⟨r, hr, rfl⟩ := List.mem_map.mp hs
        exact hne ((hpre c hc).2 r hr)
    have hbad' : (∀ s ∈ cdata.map (fun r => r.colState), s col = CState.absent) ∨
        (∃ s ∈ cdata.map (fun r => r.colState), s col ≠ CState.filled) := by
      rcases hbad with h | ⟨r, hr, hne⟩
      · refine Or.inl ?_
        intro s hs
        obtain ⟨r, hr, rfl⟩ := List.mem_map.mp hs
        exact h r hr
      · exact Or.inr ⟨r.colState, List.mem_map_of_mem _ hr, hne⟩
    have hrun := runColChecks_first_bad (cdata.map (fun r => r.colState)) "camera"
      pre col post hpre' hbad'
    rw [← heq] at hrun
    by_cases habs : ∀ r ∈ cdata, r.colState col = CState.absent
    · have habs' : ∀ s ∈ cdata.map (fun r => r.colState), s col = CState.absent := by
        intro s hs
        obtain ⟨r, hr, rfl⟩ := List.mem_map.mp hs
        exact habs r hr
      rw [if_pos habs'] at hrun
      rw [if_pos habs]
      unfold portfolio.dataframeCameras
      rw [hrun]
    · have habs' : ¬ ∀ s ∈ cdata.map (fun r => r.colState), s col = CState.absent :=
        fun hall => habs fun r hr => hall _ (List.mem_map_of_mem _ hr)
      rw [if_neg habs'] at hrun
      rw [if_neg habs]
      unfold portfolio.dataframeCameras
      rw [hrun]

/-- A camera record submitted as a dict containing only a serial number: the
`valuegbp` key is absent. -/
def badCameraData : CameraData := { serialnumber := Cell.val "XXX-777" }

/-- **C9 counterexample.** When the required `valuegbp` column is absent from
every record of a camera ingestion call, `dfnew["valuegbp"]` raises a pandas
`KeyError`, not the `MissingField` `ValueError` the claim promises. -/
theorem dataframe_keyerror_not_missingfield :
    P2.dataframeCameras [badCameraData] = .error (.keyError "valuegbp") ∧
    P2.dataframeCameras [badCameraData] ≠ .error (.missingField "camera" "valuegbp") := by
  have h : P2.dataframeCameras [badCameraData] = .error (.keyError "valuegbp") := by
    unfold portfolio.dataframeCameras
    rw [show runColChecks ([badCameraData].map (fun r => r.colState)) "camera"
        requiredinfoCamera = .error (.keyError "valuegbp") by
      rw [show requiredinfoCamera = ["valuegbp"] from rfl, runColChecks_cons, if_pos]
      intro s hs
      rw [List.mem_map] at hs
      obtain ⟨r, hr, rfl⟩ := hs
      rw [List.mem_singleton] at hr
      subst hr
      rfl]
  refine ⟨h, ?_⟩
  rw [h]
  simp

/-- A fully populated drone record submission. -/
def goodDroneData : DroneData :=
  { serialnumber := Cell.val "AAA-111", valuegbp := Cell.val 10000,
    weightband := Cell.val "0 - 5kg", hasdetachablecamera := Cell.val true,
    tpllimit := Cell.val 1000000, tplexcess := Cell.val 0 }

/-- A drone record whose `valuegbp` key is present but `None` and whose
`weightband` key is absent from the dict entirely: the checker hits
`valuegbp` first and raises the `MissingField` `ValueError`, never reaching
the all-absent `weightband` column. -/
def nullValueDrone : DroneData :=
  { valuegbp := Cell.null, hasdetachablecamera := Cell.val true,
    tpllimit := Cell.val 100, tplexcess := Cell.val 0 }

theorem dataframe_validation_witness :
    (([goodDroneData] : List DroneData) ≠ [] ∧
      ∀ r ∈ [goodDroneData], ∀ col ∈ requiredinfoDrone,
        r.colState col = CState.filled) ∧
    P2.dataframeDrones [goodDroneData] =
      .ok { P2 with drones := P2.drones ++ [goodDroneData].map toDroneRow } ∧
    P2.dataframeDrones [nullValueDrone] =
      .error (.missingField "drone" "valuegbp") ∧
    P2.dataframeCameras [] = .error (.keyError "valuegbp") := by
  have hprem : ([goodDroneData] : List DroneData) ≠ [] ∧
      ∀ r ∈ [goodDroneData], ∀ col ∈ requiredinfoDrone,
        r.colState col = CState.filled := by
    refine ⟨by simp, ?_⟩
    intro r hr col hc
    rw [List.mem_singleton] at hr
    subst hr
    fin_cases hc <;> rfl
  have h2 := (dataframe_validation P2 [nullValueDrone] []).2.2.1 []
    "valuegbp" ["weightband", "hasdetachablecamera", "tpllimit", "tplexcess"] rfl
    (by simp)
    (Or.inr ⟨nullValueDrone, List.mem_singleton_self _, by decide⟩)
  rw [if_neg (by
    intro hall
    exact absurd (hall nullValueDrone (List.mem_singleton_self _)) (by decide))] at h2
  have h3 := (dataframe_validation P2 [] ([] : List CameraData)).2.2.2.2.2 []
    "valuegbp" [] rfl (by simp) (Or.inl (by simp))
  rw [if_pos (by simp)] at h3
  exact ⟨hprem, (dataframe_validation P2 [goodDroneData] []).1 hprem, h2, h3⟩

end
